import Mathlib

/-!
# Verification of the `rosetta-docker` environment builder

A shallow embedding of `rosetta-docker/src/lib.rs`: the container health
decoder, the post-start health poll, the two backoff loops (connector
startup and HTTP readiness), the readiness stage of `run_node`, the
stale-container cleanup, and the composition performed by `Env::new`.

External effects (the container engine, the HTTP client, the connector
factory) are passed in as explicit oracles: a value per engine call, or a
function from the attempt index to the call's outcome.  Machine behaviour
that the Rust code delegates to the `tokio_retry` crate (the Fibonacci and
exponential backoff iterators and the `RetryIf` driver) is embedded
following that crate's published semantics, delay state advancing exactly
as its iterators do.
-/

/-- Errors produced by the embedded code paths, mirroring the `anyhow`
errors raised in `rosetta-docker/src/lib.rs`. -/
inductive Err
  /-- an engine (docker API) call failed -/
  | engine (msg : String)
  /-- `bail!("unknown status {}", status)` in `health` -/
  | unknownStatus (status : String)
  /-- `bail!("healthcheck reports unhealthy")` in `run_container` -/
  | unhealthyContainer
  /-- a `surf::get` failure (its `into_inner()` payload) -/
  | getFailed (msg : String)
  /-- a connector-factory failure, and the loop's initial placeholder
  `anyhow!("failed to start connector")` -/
  | connectorFailed (msg : String)
deriving Repr, DecidableEq

/-- The `Health` enum of `rosetta-docker/src/lib.rs`. -/
inductive Health
  | none
  | starting
  | healthy
  | unhealthy
deriving Repr, DecidableEq

/-- `state.health.status` leaf of a docker inspect reply: an optional
status string. -/
structure HealthInfo where
  status : Option String
deriving Repr, DecidableEq

/-- `state.health` of a docker inspect reply. -/
structure ContainerState where
  health : Option HealthInfo
deriving Repr, DecidableEq

/-- The part of a docker inspect reply read by `health`. -/
structure ContainerInspect where
  state : Option ContainerState
deriving Repr, DecidableEq

/-- Embedding of `health` (`lib.rs:262-278`).  The argument is the outcome
of `container.inspect().await`: an engine error, or the inspect data.  The
`and_then` chain over `state`/`health`/`status` becomes `Option.bind`; the
string match becomes a chain of equality tests with the same arms and the
same fall-through to the unknown-status error. -/
def health (inspect : Except Err ContainerInspect) : Except Err (Option Health) :=
  match inspect with
  | .error e => .error e
  | .ok data =>
    match (data.state.bind ContainerState.health).bind HealthInfo.status with
    | Option.none => .ok Option.none
    | some s =>
      if s = "none" then .ok (some Health.none)
      else if s = "starting" then .ok (some Health.starting)
      else if s = "healthy" then .ok (some Health.healthy)
      else if s = "unhealthy" then .ok (some Health.unhealthy)
      else .error (Err.unknownStatus s)

/-- Delay sequence of `tokio_retry::strategy::FibonacciBackoff`, `n` items
taken.  State is the pair `(curr, nxt)`; when `curr` exceeds the cap the
iterator yields the cap and leaves its state unchanged, exactly as the
crate's `next` does. -/
def fibBackoffDelays : Nat → Nat → Nat → Option Nat → List Nat
  | 0, _, _, _ => []
  | n + 1, curr, nxt, maxDelay =>
    match maxDelay with
    | some m =>
      if curr > m then m :: fibBackoffDelays n curr nxt maxDelay
      else curr :: fibBackoffDelays n nxt (curr + nxt) maxDelay
    | Option.none => curr :: fibBackoffDelays n nxt (curr + nxt) maxDelay

/-- Delay sequence of `tokio_retry::strategy::ExponentialBackoff`, `n`
items taken.  Each yielded delay is `current * factor`; when it exceeds
the cap the iterator yields the cap and leaves `current` unchanged,
otherwise `current` is multiplied by the base. -/
def expBackoffDelays : Nat → Nat → Nat → Nat → Option Nat → List Nat
  | 0, _, _, _, _ => []
  | n + 1, current, base, factor, maxDelay =>
    let duration := current * factor
    match maxDelay with
    | some m =>
      if duration > m then m :: expBackoffDelays n current base factor maxDelay
      else duration :: expBackoffDelays n (current * base) base factor maxDelay
    | Option.none => duration :: expBackoffDelays n (current * base) base factor maxDelay

/-- The connector loop's strategy (`lib.rs:230-232`):
`FibonacciBackoff::from_millis(1000).max_delay(5 s).take(10)`, in
milliseconds. -/
def connectorDelays : List Nat :=
  fibBackoffDelays 10 1000 1000 (some 5000)

/-- The HTTP readiness strategy (`lib.rs:282-285`):
`ExponentialBackoff::from_millis(2).factor(100).max_delay(2 s).take(20)`,
in milliseconds. -/
def httpDelays : List Nat :=
  expBackoffDelays 20 2 2 100 (some 2000)

/-- Observable outcome of one `run_connector` call: the returned value,
the number of times the factory was invoked, and the sleeps performed (in
milliseconds, in order). -/
structure ConnectorRun (ε γ : Type) where
  result : Except ε γ
  attempts : Nat
  sleeps : List Nat
deriving Repr

/-- The `for delay in retry_strategy` loop of `run_connector`
(`lib.rs:233-247`): one factory call per delay yielded by the strategy; a
success breaks immediately, a failure is recorded as the running `result`
and is followed by a sleep of the current delay. -/
def runConnectorLoop {ε γ : Type} (factory : Nat → Except ε γ) :
    List Nat → Nat → Except ε γ → ConnectorRun ε γ
  | [], _, last => ⟨last, 0, []⟩
  | d :: rest, k, _last =>
    match factory k with
    | .ok c => ⟨.ok c, 1, []⟩
    | .error e =>
      let r := runConnectorLoop factory rest (k + 1) (.error e)
      ⟨r.result, r.attempts + 1, d :: r.sleeps⟩

/-- Embedding of `run_connector` (`lib.rs:217-251`).  `init` is the
placeholder error `anyhow!("failed to start connector")` the loop's
`result` starts from; `factory` maps the attempt index to the outcome of
that `start_connector(config.clone())` call. -/
def run_connector {ε γ : Type} (init : ε) (factory : Nat → Except ε γ) : ConnectorRun ε γ :=
  runConnectorLoop factory connectorDelays 0 (.error init)

theorem connectorDelays_eq :
    connectorDelays = [1000, 1000, 2000, 3000, 5000, 5000, 5000, 5000, 5000, 5000] := by
  rfl

theorem httpDelays_eq :
    httpDelays =
      [200, 400, 800, 1600, 2000, 2000, 2000, 2000, 2000, 2000,
       2000, 2000, 2000, 2000, 2000, 2000, 2000, 2000, 2000, 2000] := by
  rfl

deriving instance DecidableEq for Except

/-- The local `RetryError` enum of `wait_for_http` (`lib.rs:287-291`):
`Retry` marks a transient failure, `ContainerExited` a fatal one.  Both
carry the GET error (`err.into_inner()`). -/
inductive RetryError (ε : Type)
  | retry (e : ε)
  | containerExited (e : ε)
deriving Repr, DecidableEq

/-- The retry condition passed to `RetryIf::spawn` (`lib.rs:309`): only
`Retry` errors are retried. -/
def retryCond {ε : Type} : RetryError ε → Bool
  | .retry _ => true
  | .containerExited _ => false

/-- The fatality test of `wait_for_http` (`lib.rs:301`):
`matches!(health_status, Err(_) | Ok(Some(Health::Unhealthy)))`. -/
def healthFatal : Except Err (Option Health) → Bool
  | .error _ => true
  | .ok (some Health.unhealthy) => true
  | _ => false

/-- One attempt of the `wait_for_http` action (`lib.rs:295-307`): try the
GET; on failure re-check container health and classify the GET error as
fatal (`ContainerExited`) or transient (`Retry`).  `get n` is the outcome
of the `n`-th `surf::get(url)` call, `hin n` the inspect outcome of the
health check that follows a failure of attempt `n`. -/
def wfhAction (get : Nat → Except Err Unit) (hin : Nat → Except Err ContainerInspect)
    (n : Nat) : Except (RetryError Err) Unit :=
  match get n with
  | .ok _ => .ok ()
  | .error err =>
    if healthFatal (health (hin n)) then .error (RetryError.containerExited err)
    else .error (RetryError.retry err)

/-- Observable outcome of a `RetryIf::spawn` run: the final result and the
number of times the action was invoked. -/
structure RetryRun (ε α : Type) where
  result : Except ε α
  attempts : Nat
deriving Repr

/-- `tokio_retry::RetryIf` driver semantics: run the action once; on an
error satisfying the condition, pull the next delay from the strategy —
if one remains, sleep and retry, otherwise (or when the condition rejects
the error) resolve with that error.  The first attempt is unconditional,
so a strategy of `k` delays admits up to `k + 1` attempts. -/
def retryIfRun {ε α : Type} (action : Nat → Except ε α) (cond : ε → Bool) :
    List Nat → Nat → RetryRun ε α
  | delays, n =>
    match action n with
    | .ok a => ⟨.ok a, 1⟩
    | .error e =>
      if cond e then
        match delays with
        | [] => ⟨.error e, 1⟩
        | _ :: rest =>
          let r := retryIfRun action cond rest (n + 1)
          ⟨r.result, r.attempts + 1⟩
      else ⟨.error e, 1⟩

/-- Embedding of `wait_for_http` (`lib.rs:280-316`) before the final
`map_err`: the `RetryIf::spawn` run over the exponential strategy. -/
def wait_for_http_raw (get : Nat → Except Err Unit)
    (hin : Nat → Except Err ContainerInspect) : RetryRun (RetryError Err) Unit :=
  retryIfRun (wfhAction get hin) retryCond httpDelays 0

/-- Embedding of `wait_for_http` (`lib.rs:280-316`) including the final
`map_err`, which unwraps both `RetryError` variants to the inner GET
error. -/
def wait_for_http (get : Nat → Except Err Unit)
    (hin : Nat → Except Err ContainerInspect) : Except Err Unit :=
  match (wait_for_http_raw get hin).result with
  | .ok a => .ok a
  | .error (RetryError.retry e) => .error e
  | .error (RetryError.containerExited e) => .error e

/-- The post-start health poll of `run_container` (`lib.rs:158-166`),
with explicit fuel for the unbounded `loop`: `Unhealthy` bails with the
fatal error, `Starting` sleeps 100 ms and polls again, every other
outcome (no status, `None`, `Healthy`) breaks successfully.  `hin i` is
the inspect outcome of the `i`-th poll; the result is `none` when the
fuel runs out before the loop exits. -/
def health_poll (hin : Nat → Except Err ContainerInspect) :
    Nat → Nat → Option (Except Err Unit)
  | _, 0 => Option.none
  | i, fuel + 1 =>
    match health (hin i) with
    | .error e => some (.error e)
    | .ok (some Health.unhealthy) => some (.error Err.unhealthyContainer)
    | .ok (some Health.starting) => health_poll hin (i + 1) fuel
    | .ok _ => some (.ok ())

/-- Observable outcome of `run_container`: whether the container was
created and started, and the propagated result.  `run_container` never
stops the container it created — its errors (create, start, health poll)
propagate bare. -/
structure ContainerRun where
  created : Bool
  started : Bool
  result : Except Err Unit
deriving Repr, DecidableEq

/-- Embedding of `run_container` (`lib.rs:122-169`): create, start, then
the health poll; each step's error propagates via `?` with no cleanup.
The spawned log-forwarding task (`lib.rs:130-155`) has no effect on the
returned value and is not modelled. -/
def run_container (createRes startRes : Except Err Unit)
    (pollHin : Nat → Except Err ContainerInspect) (fuel : Nat) : Option ContainerRun :=
  match createRes with
  | .error e => some ⟨false, false, .error e⟩
  | .ok _ =>
    match startRes with
    | .error e => some ⟨true, false, .error e⟩
    | .ok _ =>
      match health_poll pollHin 0 fuel with
      | Option.none => Option.none
      | some (.error e) => some ⟨true, true, .error e⟩
      | some (.ok _) => some ⟨true, true, .ok ()⟩

/-- Modelled from the spec: `NodeUri` lives in the `rosetta-core` crate,
whose sources are not part of this tree.  Per §3 and §6 of the spec it is
a scheme / host / port triple; `with_scheme` and `with_host` replace the
respective field and `render` is its display form `scheme://host:port`. -/
structure NodeUri where
  scheme : String
  host : String
  port : Nat
deriving Repr, DecidableEq

/-- Modelled from the spec: `NodeUri::with_scheme` (rosetta-core). -/
def NodeUri.with_scheme (u : NodeUri) (s : String) : NodeUri :=
  { u with scheme := s }

/-- Modelled from the spec: `NodeUri::with_host` (rosetta-core). -/
def NodeUri.with_host (u : NodeUri) (h : String) : NodeUri :=
  { u with host := h }

/-- Modelled from the spec: `NodeUri`'s `to_string` (rosetta-core). -/
def NodeUri.render (u : NodeUri) : String :=
  u.scheme ++ "://" ++ u.host ++ ":" ++ toString u.port

/-- The scheme family that selects the HTTP readiness strategy
(`lib.rs:192`). -/
def schemeFamily : List String :=
  ["http", "https", "ws", "wss"]

/-- Observable outcome of `run_node`: whether the container was created
and started, whether `run_node` explicitly stopped it (`lib.rs:211`), the
whole seconds slept by the readiness stage, the URL targeted by the HTTP
probe when that strategy ran, and the propagated result. -/
structure NodeRun where
  created : Bool
  started : Bool
  stopped : Bool
  sleptSecs : List Nat
  probedUrl : Option String
  result : Except Err Unit
deriving Repr, DecidableEq

/-- Embedding of `run_node` (`lib.rs:171-215`): `run_container`, then the
scheme-selected readiness stage.  A `run_container` error propagates via
`?` with no stop; a readiness error stops the container and is returned;
the non-HTTP branch sleeps a fixed 15 s, performs one health check and
keeps only its `Err` part (`health(&container).await.err()`). -/
def run_node (createRes startRes : Except Err Unit)
    (pollHin : Nat → Except Err ContainerInspect) (fuel : Nat) (uri : NodeUri)
    (httpGet : Nat → Except Err Unit) (httpHin : Nat → Except Err ContainerInspect)
    (readyHin : Except Err ContainerInspect) : Option NodeRun :=
  match run_container createRes startRes pollHin fuel with
  | Option.none => Option.none
  | some cr =>
    match cr.result with
    | .error e => some ⟨cr.created, cr.started, false, [], Option.none, .error e⟩
    | .ok _ =>
      if uri.scheme ∈ schemeFamily then
        let url := ((uri.with_scheme "http").with_host "127.0.0.1").render
        match wait_for_http httpGet httpHin with
        | .error err => some ⟨cr.created, cr.started, true, [], some url, .error err⟩
        | .ok _ => some ⟨cr.created, cr.started, false, [], some url, .ok ()⟩
      else
        match health readyHin with
        | .error err => some ⟨cr.created, cr.started, true, [15], Option.none, .error err⟩
        | .ok _ => some ⟨cr.created, cr.started, false, [15], Option.none, .ok ()⟩

/-- Observable outcome of `Env::new`: creation/start/stop state of the
node container and the propagated result. -/
structure EnvRun where
  nodeCreated : Bool
  nodeStarted : Bool
  nodeStopped : Bool
  result : Except Err Unit
deriving Repr, DecidableEq

/-- Embedding of the node-lifecycle core of `Env::new` (`lib.rs:22-56`):
`run_node` followed by `run_connector`; a `run_node` error propagates via
`?` unchanged, a connector error stops the node container
(`lib.rs:46-48`) before being returned.  The stale-container cleanup that
precedes `run_node` (`lib.rs:37`) acts only on containers of earlier runs
and is embedded separately as `stop_container`; the random port draw and
logger initialisation do not affect the modelled outcome. -/
def Env.new {γ : Type} (createRes startRes : Except Err Unit)
    (pollHin : Nat → Except Err ContainerInspect) (fuel : Nat) (uri : NodeUri)
    (httpGet : Nat → Except Err Unit) (httpHin : Nat → Except Err ContainerInspect)
    (readyHin : Except Err ContainerInspect) (factory : Nat → Except Err γ) :
    Option EnvRun :=
  match run_node createRes startRes pollHin fuel uri httpGet httpHin readyHin with
  | Option.none => Option.none
  | some nr =>
    match nr.result with
    | .error e => some ⟨nr.created, nr.started, nr.stopped, .error e⟩
    | .ok _ =>
      match (run_connector (Err.connectorFailed "failed to start connector") factory).result with
      | .error e => some ⟨nr.created, nr.started, true, .error e⟩
      | .ok _ => some ⟨nr.created, nr.started, nr.stopped, .ok ()⟩

/-- The container in question was created with `auto_remove`, which takes
effect when the container stops; a container that was created and never
stopped is still present afterwards. -/
def containerRemains (r : EnvRun) : Bool :=
  r.nodeCreated && !r.nodeStopped

/-- The fields of a `docker_api` container summary that `stop_container`
reads: both are optional in the wire schema and are `unwrap`ped by the
code. -/
structure ContainerSummary where
  names : Option (List String)
  id : Option String
deriving Repr, DecidableEq

/-- Engine calls issued by `stop_container` on a matched container. -/
inductive EngineAct
  | stop (id : String)
  | delete (id : String)
deriving Repr, DecidableEq

/-- The container id an engine action targets. -/
def EngineAct.actId : EngineAct → String
  | .stop i => i
  | .delete i => i

/-- How a `stop_container` run ended: normally, by an `unwrap` panic, or
by a propagated `stop` error. -/
inductive StopTermination
  | ok
  | panicked
  | failed (e : Err)
deriving Repr, DecidableEq

/-- Observable outcome of `stop_container`: the engine actions issued, in
order, and how the run ended. -/
structure StopRun where
  acts : List EngineAct
  term : StopTermination
deriving Repr, DecidableEq

/-- Suffix test on strings, the shallow embedding of Rust's
`str::ends_with` (`n.as_str().ends_with(name)`, `lib.rs:108`): the
candidate's final characters equal the sought suffix.  Written over the
character list so that it evaluates by kernel reduction. -/
def strEndsWith (s sfx : String) : Bool :=
  (s.data.reverse.take sfx.data.length).reverse == sfx.data

/-- The match test of `stop_container` (`lib.rs:103-108`) as a predicate
on a summary whose `names` field is present: some recorded name ends with
the derived name.  A summary with `names` absent makes the code panic
before this test completes, so the predicate treats it as no match; it is
used only to speak about the first matching summary. -/
def matchesName (name : String) (c : ContainerSummary) : Bool :=
  match c.names with
  | Option.none => false
  | some ns => ns.any (fun n => strEndsWith n name)

/-- Embedding of `stop_container` (`lib.rs:100-120`): walk the listed
summaries in order; `names` is `unwrap`ped on every examined summary; on
the first summary with a name ending in the derived name, `unwrap` its
`id`, issue `stop` (whose error propagates) and best-effort `delete`
(error swallowed by `.ok()`), and `break`.  `stopRes` maps a container id
to the outcome of its `stop` call. -/
def stop_container (name : String) (stopRes : String → Except Err Unit) :
    List ContainerSummary → StopRun
  | [] => ⟨[], StopTermination.ok⟩
  | c :: rest =>
    match c.names with
    | Option.none => ⟨[], StopTermination.panicked⟩
    | some ns =>
      if ns.any (fun n => strEndsWith n name) then
        match c.id with
        | Option.none => ⟨[], StopTermination.panicked⟩
        | some cid =>
          match stopRes cid with
          | .error e => ⟨[EngineAct.stop cid], StopTermination.failed e⟩
          | .ok _ => ⟨[EngineAct.stop cid, EngineAct.delete cid], StopTermination.ok⟩
      else
        stop_container name stopRes rest

/-- A signing key pair.  Its internals are irrelevant to the claims; only
success or failure of its generation matters. -/
structure Signer where
  seed : Nat
deriving Repr, DecidableEq

/-- A wallet bound to a cloned connector reference and a signer. -/
structure Wallet (γ : Type) where
  client : γ
  signer : Signer
deriving Repr, DecidableEq

/-- Modelled from the spec: `Wallet::new` lives in
`rosetta-client/src/wallet.rs`, which is not part of this tree.  Per §4.5
of the spec, wallet construction over a live connector reference and a
freshly generated signer succeeds — `ephemeralWallet()` "fails only if
key generation fails". -/
def Wallet.new {γ : Type} (client : γ) (signer : Signer) : Except Err (Wallet γ) :=
  .ok ⟨client, signer⟩

/-- Embedding of `Env::ephemeral_wallet` (`lib.rs:62-65`):
`Signer::generate()?` then `Wallet::new`.  `generate` is the outcome of
the `Signer::generate()` call (`rosetta-client/src/signer.rs`, not in
this tree, so passed as an oracle). -/
def ephemeral_wallet {γ : Type} (client : γ) (generate : Except Err Signer) :
    Except Err (Wallet γ) :=
  match generate with
  | .error e => .error e
  | .ok signer => Wallet.new client signer

theorem runConnectorLoop_allFail {ε γ : Type} (f : Nat → Except ε γ) :
    ∀ (ds : List Nat) (k : Nat) (last : Except ε γ),
      ds ≠ [] →
      (∀ i, i < ds.length → ∃ e, f (k + i) = .error e) →
      runConnectorLoop f ds k last = ⟨f (k + ds.length - 1), ds.length, ds⟩ := by
  intro ds
  induction ds with
  | nil => intro k last h _; exact absurd rfl h
  | cons d rest ih =>
    intro k last _ hfail
    obtain ⟨e, he⟩ := hfail 0 (Nat.succ_pos _)
    rw [Nat.add_zero] at he
    by_cases hrest : rest = []
    · subst hrest
      simp [runConnectorLoop, he]
    · have hfail' : ∀ i, i < rest.length → ∃ e, f (k + 1 + i) = .error e := by
        intro i hi
        have h := hfail (i + 1) (by simpa using Nat.succ_lt_succ hi)
        rwa [show k + (i + 1) = k + 1 + i by omega] at h
    
      have hrec := ih (k + 1) (.error e) hrest hfail'
      simp only [runConnectorLoop, he, hrec, List.length_cons]
      have hidx : k + 1 + rest.length - 1 = k + (rest.length + 1) - 1 := by omega
      rw [hidx]

theorem runConnectorLoop_firstSuccess {ε γ : Type} (f : Nat → Except ε γ) :
    ∀ (j : Nat) (ds : List Nat) (k : Nat) (last : Except ε γ),
      j < ds.length →
      (∀ i, i < j → ∃ e, f (k + i) = .error e) →
      (∃ c, f (k + j) = .ok c) →
      runConnectorLoop f ds k last = ⟨f (k + j), j + 1, ds.take j⟩ := by
  intro j
  induction j with
  | zero =>
    intro ds k last hlen hfail hok
    obtain ⟨c, hc⟩ := hok
    rw [Nat.add_zero] at hc
    cases ds with
    | nil => simp at hlen
    | cons d rest => simp [runConnectorLoop, hc]
  | succ j ih =>
    intro ds k last hlen hfail hok
    cases ds with
    | nil => simp at hlen
    | cons d rest =>
      obtain ⟨e, he⟩ := hfail 0 (Nat.succ_pos _)
      rw [Nat.add_zero] at he
      have hfail' : ∀ i, i < j → ∃ e, f (k + 1 + i) = .error e := by
        intro i hi
        have h := hfail (i + 1) (Nat.succ_lt_succ hi)
        rwa [show k + (i + 1) = k + 1 + i by omega] at h
      have hok' : ∃ c, f (k + 1 + j) = .ok c := by
        obtain ⟨c, hc⟩ := hok
        exact ⟨c, by rwa [show k + 1 + j = k + (j + 1) by omega]⟩
      have hlen' : j < rest.length := Nat.lt_of_succ_lt_succ (by simpa using hlen)
      have hrec := ih rest (k + 1) (.error e) hlen' hfail' hok'
      simp only [runConnectorLoop, he, hrec, List.take_succ_cons]
      rw [show k + 1 + j = k + (j + 1) by omega]

theorem retryIfRun_attempts_le {ε α : Type} (action : Nat → Except ε α) (cond : ε → Bool) :
    ∀ (ds : List Nat) (n : Nat), (retryIfRun action cond ds n).attempts ≤ ds.length + 1 := by
  intro ds
  induction ds with
  | nil =>
    intro n
    unfold retryIfRun
    cases action n with
    | ok a => simp
    | error e => by_cases h : cond e <;> simp [h]
  | cons d rest ih =>
    intro n
    unfold retryIfRun
    cases action n with
    | ok a => simp
    | error e =>
      by_cases h : cond e
      · have hr := ih (n + 1)
        simp only [h, if_true, List.length_cons]
        omega
      · simp [h]

theorem retryIfRun_allRetry {ε α : Type} (action : Nat → Except ε α) (cond : ε → Bool)
    (es : Nat → ε) (hact : ∀ n, action n = .error (es n)) (hcond : ∀ n, cond (es n) = true) :
    ∀ (ds : List Nat) (n : Nat),
      retryIfRun action cond ds n = ⟨.error (es (n + ds.length)), ds.length + 1⟩ := by
  intro ds
  induction ds with
  | nil => intro n; simp [retryIfRun, hact n, hcond n]
  | cons d rest ih =>
    intro n
    simp only [retryIfRun, hact n, hcond n, if_true, ih (n + 1), List.length_cons]
    have hidx : n + 1 + rest.length = n + (rest.length + 1) := by omega
    rw [hidx]

theorem retryIfRun_abort {ε α : Type} (action : Nat → Except ε α) (cond : ε → Bool) :
    ∀ (n : Nat) (ds : List Nat) (m : Nat) (efin : ε),
      n ≤ ds.length →
      (∀ k, k < n → ∃ e, action (m + k) = .error e ∧ cond e = true) →
      action (m + n) = .error efin → cond efin = false →
      retryIfRun action cond ds m = ⟨.error efin, n + 1⟩ := by
  intro n
  induction n with
  | zero =>
    intro ds m efin _ _ hat hc
    rw [Nat.add_zero] at hat
    cases ds <;> simp [retryIfRun, hat, hc]
  | succ n ih =>
    intro ds m efin hlen hbefore hat hc
    cases ds with
    | nil => simp at hlen
    | cons d rest =>
      obtain ⟨e, he, hce⟩ := hbefore 0 (Nat.succ_pos _)
      rw [Nat.add_zero] at he
      have h1 : ∀ k, k < n → ∃ e, action (m + 1 + k) = .error e ∧ cond e = true := by
        intro k hk
        obtain ⟨e', he', hce'⟩ := hbefore (k + 1) (Nat.succ_lt_succ hk)
        exact ⟨e', by rwa [show m + 1 + k = m + (k + 1) by omega], hce'⟩
      have h2 : action (m + 1 + n) = .error efin := by
        rwa [show m + 1 + n = m + (n + 1) by omega]
      have hlen' : n ≤ rest.length := by simpa using Nat.le_of_succ_le_succ hlen
      have hrec := ih rest (m + 1) efin hlen' h1 h2 hc
      simp [retryIfRun, he, hce, hrec]

/-- Inspect data whose health status string is `"healthy"`. -/
def healthyInspect : ContainerInspect := ⟨some ⟨some ⟨some "healthy"⟩⟩⟩

/-- Inspect data whose health status string is `"unhealthy"`. -/
def unhealthyInspect : ContainerInspect := ⟨some ⟨some ⟨some "unhealthy"⟩⟩⟩

/-- **C7.** For every inspect result whose health-status string is not one
of `"none"`, `"starting"`, `"healthy"`, `"unhealthy"`, the `health`
function returns an unknown-status error; it never maps the string to an
existing `Health` variant and never passes silently. -/
theorem C7_unknown_status_fatal (s : String)
    (h : ¬ (s = "none" ∨ s = "starting" ∨ s = "healthy" ∨ s = "unhealthy")) :
    health (.ok ⟨some ⟨some ⟨some s⟩⟩⟩) = .error (Err.unknownStatus s) := by
  push_neg at h
  obtain ⟨h1, h2, h3, h4⟩ := h
  simp [health, h1, h2, h3, h4]

/-- Witness for **C7** at the status string `"degraded"`. -/
theorem C7_unknown_status_fatal_witness :
    health (.ok ⟨some ⟨some ⟨some "degraded"⟩⟩⟩) = .error (Err.unknownStatus "degraded") :=
  C7_unknown_status_fatal "degraded" (by decide)

/-- **C6.** Whenever `Signer::generate` succeeds, `ephemeral_wallet`
returns a wallet successfully; it fails only if signing-key generation
fails.  (`Wallet::new` is modelled from the spec, §4.5: wallet
construction over a generated signer succeeds.) -/
theorem C6_ephemeral_wallet_total {γ : Type} (client : γ)
    (generate : Except Err Signer) (s : Signer) (h : generate = .ok s) :
    ephemeral_wallet client generate = .ok ⟨client, s⟩ := by
  subst h
  rfl

/-- Witness for **C6** at a concrete generated signer. -/
theorem C6_ephemeral_wallet_total_witness :
    ephemeral_wallet () (.ok ⟨42⟩) = .ok ⟨(), ⟨42⟩⟩ :=
  C6_ephemeral_wallet_total () (.ok ⟨42⟩) ⟨42⟩ rfl

/-- **C1.** The claim says: when the post-start health poll observes
`Unhealthy`, `Env::new` returns a fatal error and zero containers
matching the derived name remain.  The code run at exactly that input
shows the first half only: the `bail!` from `run_container`'s poll
propagates through `run_node` and `Env::new` via `?` (the stop at
`lib.rs:211` covers only readiness-stage failures, the one at
`lib.rs:46-48` only connector failures), so the created and started
container is never stopped and — being created `auto_remove`, which fires
only on stop/exit — it remains. -/
theorem C1_unhealthy_poll_leaves_container :
    Env.new (γ := Unit) (.ok ()) (.ok ()) (fun _ => .ok unhealthyInspect) 1
        ⟨"ws", "example.com", 8000⟩ (fun _ => .ok ()) (fun _ => .ok healthyInspect)
        (.ok healthyInspect) (fun _ => .ok ()) =
      some ⟨true, true, false, .error Err.unhealthyContainer⟩ ∧
    containerRemains ⟨true, true, false, .error Err.unhealthyContainer⟩ = true :=
  ⟨rfl, rfl⟩

/-- **C2**, counterexample: a non-HTTP-scheme run whose single post-sleep
health check successfully reports `"unhealthy"` makes `run_node` succeed
— the code keeps only the `Err` part of the health call
(`health(&container).await.err()`), so a reported `Unhealthy` status does
not fail the stage, contradicting the claim. -/
theorem C2_unhealthy_passes_counterexample :
    run_node (.ok ()) (.ok ()) (fun _ => .ok healthyInspect) 1
        ⟨"file", "example.com", 8000⟩ (fun _ => .ok ())
        (fun _ => .ok healthyInspect) (.ok unhealthyInspect) =
      some ⟨true, true, false, [15], Option.none, .ok ()⟩ := by
  rfl

/-- **C2** (amended).  For every config whose node URI scheme is not one
of http, https, ws, wss, the readiness stage sleeps a fixed 15 seconds
and then performs exactly one health check; the stage fails (stopping the
container) exactly when that health call itself returns an error — an
engine failure or an unrecognized status — while a check that
successfully reports any status, `Unhealthy` included, lets the stage
succeed. -/
theorem C2_nonhttp_single_check (createRes startRes : Except Err Unit)
    (pollHin : Nat → Except Err ContainerInspect) (fuel : Nat) (uri : NodeUri)
    (httpGet : Nat → Except Err Unit) (httpHin : Nat → Except Err ContainerInspect)
    (readyHin : Except Err ContainerInspect)
    (hs : uri.scheme ∉ schemeFamily)
    (hc : createRes = .ok ()) (hst : startRes = .ok ())
    (hp : health_poll pollHin 0 fuel = some (.ok ())) :
    ∃ r, run_node createRes startRes pollHin fuel uri httpGet httpHin readyHin = some r ∧
      r.sleptSecs = [15] ∧ r.probedUrl = Option.none ∧
      (∀ e, health readyHin = .error e → r.result = .error e ∧ r.stopped = true) ∧
      (∀ v, health readyHin = .ok v → r.result = .ok () ∧ r.stopped = false) := by
  subst hc hst
  cases hh : health readyHin with
  | error e =>
    refine ⟨⟨true, true, true, [15], Option.none, .error e⟩, ?_, rfl, rfl, ?_, ?_⟩
    · simp [run_node, run_container, hp, hs, hh]
    · intro e' he'
      injection he' with he''
      subst he''
      exact ⟨rfl, rfl⟩
    · intro v hv
      simp at hv
  | ok v =>
    refine ⟨⟨true, true, false, [15], Option.none, .ok ()⟩, ?_, rfl, rfl, ?_, ?_⟩
    · simp [run_node, run_container, hp, hs, hh]
    · intro e' he'
      simp at he'
    · intro v' hv'
      exact ⟨rfl, rfl⟩

/-- Witness for **C2** (amended): the non-HTTP stage with a health check
successfully reporting `"unhealthy"` sleeps 15 seconds and succeeds. -/
theorem C2_nonhttp_single_check_witness :
    ∃ r, run_node (.ok ()) (.ok ()) (fun _ => .ok healthyInspect) 1
        ⟨"file", "example.com", 8000⟩ (fun _ => .ok ())
        (fun _ => .ok healthyInspect) (.ok unhealthyInspect) = some r ∧
      r.sleptSecs = [15] ∧ r.result = .ok () := by
  obtain ⟨r, hr, h15, _, _, hok⟩ := C2_nonhttp_single_check (.ok ()) (.ok ())
    (fun _ => .ok healthyInspect) 1 ⟨"file", "example.com", 8000⟩ (fun _ => .ok ())
    (fun _ => .ok healthyInspect) (.ok unhealthyInspect) (by decide) rfl rfl rfl
  exact ⟨r, hr, h15, (hok (some Health.unhealthy) rfl).1⟩

/-- **C3.** With a connector factory that fails on every invocation,
`run_connector` invokes the factory exactly 10 times and returns its last
error verbatim; with a factory that first succeeds on invocation `j + 1`
(1-based `k = j + 1 ≤ 10`), the loop stops immediately after that
invocation, having slept exactly `j` delays of the Fibonacci backoff
(initial delay 1000 ms, capped at 5000 ms). -/
theorem C3_connector_backoff {ε γ : Type} (init : ε) (f : Nat → Except ε γ) :
    ((∀ k, k < 10 → ∃ e, f k = .error e) →
      (run_connector init f).result = f 9 ∧ (run_connector init f).attempts = 10) ∧
    (∀ j, j < 10 → (∀ k, k < j → ∃ e, f k = .error e) → (∃ c, f j = .ok c) →
      (run_connector init f).result = f j ∧ (run_connector init f).attempts = j + 1 ∧
        (run_connector init f).sleeps = connectorDelays.take j) := by
  have hlen : connectorDelays.length = 10 := by rfl
  constructor
  · intro hfail
    have h := runConnectorLoop_allFail f connectorDelays 0 (.error init)
      (by rw [connectorDelays_eq]; simp)
      (fun i hi => by rw [Nat.zero_add]; exact hfail i (hlen ▸ hi))
    rw [hlen] at h
    unfold run_connector
    rw [h]
    exact ⟨rfl, rfl⟩
  · intro j hj hfail hok
    have h := runConnectorLoop_firstSuccess f j connectorDelays 0 (.error init)
      (hlen ▸ hj)
      (fun i hi => by rw [Nat.zero_add]; exact hfail i hi)
      (by rw [Nat.zero_add]; exact hok)
    unfold run_connector
    rw [h, Nat.zero_add]
    exact ⟨rfl, rfl, rfl⟩

/-- Concrete factory for the **C3** witness: fails on its first three
invocations, succeeds on the fourth. -/
def c3Factory : Nat → Except Nat Nat := fun k => if k < 3 then .error k else .ok k

/-- Witness for **C3**: three failures then a success stop the loop after
4 invocations with exactly 3 Fibonacci sleeps. -/
theorem C3_connector_backoff_witness :
    (run_connector 99 c3Factory).result = .ok 3 ∧
    (run_connector 99 c3Factory).attempts = 4 ∧
    (run_connector 99 c3Factory).sleeps = [1000, 1000, 2000] := by
  have h := (C3_connector_backoff 99 c3Factory).2 3 (by omega)
    (fun k hk => ⟨k, by simp [c3Factory, hk]⟩) ⟨3, by simp [c3Factory]⟩
  refine ⟨?_, h.2.1, ?_⟩
  · rw [h.1]; rfl
  · rw [h.2.2]; rfl

/-- A GET oracle that fails on every attempt. -/
def c4Get : Nat → Except Err Unit := fun _ => .error (Err.getFailed "connection refused")

/-- A health oracle that always reports `"healthy"`. -/
def c4Hin : Nat → Except Err ContainerInspect := fun _ => .ok healthyInspect

/-- **C4**, counterexample: with a GET that never succeeds and health
checks that never turn fatal, the `RetryIf` run makes 21 GET attempts —
the unconditional first attempt plus the 20 retries of `take(20)` — so
the claim's ceiling of "at most 20 GET attempts" is exceeded. -/
theorem C4_attempt_ceiling_counterexample :
    (wait_for_http_raw c4Get c4Hin).attempts = 21 ∧
    ¬ (wait_for_http_raw c4Get c4Hin).attempts ≤ 20 := by
  have h21 : (wait_for_http_raw c4Get c4Hin).attempts = 21 := by rfl
  exact ⟨h21, by omega⟩

/-- **C4** (amended).  For every HTTP-family readiness run,
`wait_for_http` makes at most 21 GET attempts — one unconditional first
attempt plus up to 20 retries of the exponential backoff (initial delay
2 ms-units, factor 100, per-step cap 2 s); when no GET ever succeeds and
the interleaved health checks never error and never report `Unhealthy`,
all 21 attempts are consumed and the run fails with the last GET error
classified transient (`Retry`) — a readiness timeout, not a
container-exited abort. -/
theorem C4_http_attempt_budget :
    (∀ (get : Nat → Except Err Unit) (hin : Nat → Except Err ContainerInspect),
      (wait_for_http_raw get hin).attempts ≤ 21) ∧
    (∀ (get : Nat → Except Err Unit) (hin : Nat → Except Err ContainerInspect)
        (es : Nat → Err),
      (∀ n, get n = .error (es n)) →
      (∀ n, healthFatal (health (hin n)) = false) →
      (wait_for_http_raw get hin).result = .error (RetryError.retry (es 20)) ∧
      (wait_for_http_raw get hin).attempts = 21 ∧
      wait_for_http get hin = .error (es 20)) := by
  constructor
  · intro get hin
    have h := retryIfRun_attempts_le (wfhAction get hin) retryCond httpDelays 0
    rw [show httpDelays.length = 20 from rfl] at h
    exact h
  · intro get hin es hget hfatal
    have hact : ∀ n, wfhAction get hin n = .error (RetryError.retry (es n)) := by
      intro n
      simp [wfhAction, hget n, hfatal n]
    have h := retryIfRun_allRetry (wfhAction get hin) retryCond
      (fun n => RetryError.retry (es n)) hact (fun _ => rfl) httpDelays 0
    rw [show httpDelays.length = 20 from rfl, Nat.zero_add] at h
    have hraw : wait_for_http_raw get hin = ⟨.error (RetryError.retry (es 20)), 21⟩ := h
    refine ⟨by rw [hraw], by rw [hraw], ?_⟩
    simp [wait_for_http, hraw]

/-- Witness for **C4** (amended) at the always-failing GET oracle. -/
theorem C4_http_attempt_budget_witness :
    (wait_for_http_raw c4Get c4Hin).attempts ≤ 21 ∧
    wait_for_http c4Get c4Hin = .error (Err.getFailed "connection refused") := by
  refine ⟨C4_http_attempt_budget.1 c4Get c4Hin, ?_⟩
  exact (C4_http_attempt_budget.2 c4Get c4Hin
    (fun _ => Err.getFailed "connection refused") (fun _ => rfl) (fun _ => rfl)).2.2

/-- **C5.**  During the HTTP readiness wait, whenever the first `n`
GET attempts fail transiently (health never fatal there) and attempt `n`
fails with its following health check erroring or reporting `Unhealthy`,
the probe makes no further attempt: it resolves immediately after attempt
`n + 1` attempts total, with the `ContainerExited` classification rather
than a retry/timeout one, returning that GET error. -/
theorem C5_failfast_abort (get : Nat → Except Err Unit)
    (hin : Nat → Except Err ContainerInspect) (n : Nat) (en : Err)
    (hn : n ≤ 20)
    (hbefore : ∀ k, k < n → (∃ e, get k = .error e) ∧ healthFatal (health (hin k)) = false)
    (hgetn : get n = .error en)
    (hfatal : healthFatal (health (hin n)) = true) :
    (wait_for_http_raw get hin).result = .error (RetryError.containerExited en) ∧
    (wait_for_http_raw get hin).attempts = n + 1 ∧ n + 1 ≤ 21 ∧
    wait_for_http get hin = .error en := by
  have habort := retryIfRun_abort (wfhAction get hin) retryCond n httpDelays 0
    (RetryError.containerExited en)
    (by rw [show httpDelays.length = 20 from rfl]; exact hn)
    (fun k hk => by
      obtain ⟨⟨e, he⟩, hf⟩ := hbefore k hk
      refine ⟨RetryError.retry e, ?_, rfl⟩
      simp [wfhAction, Nat.zero_add, he, hf])
    (by simp [wfhAction, Nat.zero_add, hgetn, hfatal])
    rfl
  have hraw : wait_for_http_raw get hin = ⟨.error (RetryError.containerExited en), n + 1⟩ :=
    habort
  refine ⟨by rw [hraw], by rw [hraw], by omega, ?_⟩
  simp [wait_for_http, hraw]

/-- Health oracle for the **C5** witness: healthy after attempt 0, then
unhealthy. -/
def c5Hin : Nat → Except Err ContainerInspect := fun k =>
  if k = 0 then .ok healthyInspect else .ok unhealthyInspect

/-- Witness for **C5**: one transient GET failure, then a GET failure
whose health check reports unhealthy — the probe stops after 2 attempts
and surfaces the GET error. -/
theorem C5_failfast_abort_witness :
    (wait_for_http_raw c4Get c5Hin).attempts = 2 ∧
    wait_for_http c4Get c5Hin = .error (Err.getFailed "connection refused") := by
  have h := C5_failfast_abort c4Get c5Hin 1 (Err.getFailed "connection refused")
    (by omega)
    (fun k hk => by
      have hk0 : k = 0 := by omega
      subst hk0
      exact ⟨⟨Err.getFailed "connection refused", rfl⟩, rfl⟩)
    rfl rfl
  exact ⟨h.2.1, h.2.2.2⟩

/-- **C8.**  For every config whose URI scheme is in the http family, the
readiness probe targets the URL obtained by rewriting the scheme to plain
`http` and the host to `127.0.0.1` while keeping the injected port.
(`NodeUri` is modelled from the spec; the scheme test and rewrite chain
are `lib.rs:192-198`.) -/
theorem C8_scheme_rewrite (createRes startRes : Except Err Unit)
    (pollHin : Nat → Except Err ContainerInspect) (fuel : Nat) (uri : NodeUri)
    (httpGet : Nat → Except Err Unit) (httpHin : Nat → Except Err ContainerInspect)
    (readyHin : Except Err ContainerInspect)
    (hs : uri.scheme ∈ schemeFamily)
    (hc : createRes = .ok ()) (hst : startRes = .ok ())
    (hp : health_poll pollHin 0 fuel = some (.ok ())) :
    ∃ r, run_node createRes startRes pollHin fuel uri httpGet httpHin readyHin = some r ∧
      r.probedUrl = some ("http://127.0.0.1:" ++ toString uri.port) := by
  subst hc hst
  have hurl : ((uri.with_scheme "http").with_host "127.0.0.1").render =
      "http://127.0.0.1:" ++ toString uri.port := rfl
  cases hw : wait_for_http httpGet httpHin with
  | error err =>
    refine ⟨⟨true, true, true, [], some ("http://127.0.0.1:" ++ toString uri.port),
      .error err⟩, ?_, rfl⟩
    simp [run_node, run_container, hp, hs, hw, hurl]
  | ok u =>
    refine ⟨⟨true, true, false, [], some ("http://127.0.0.1:" ++ toString uri.port),
      .ok ()⟩, ?_, rfl⟩
    simp [run_node, run_container, hp, hs, hw, hurl]

/-- Witness for **C8**: a `wss://node.example:9944` config probes
`http://127.0.0.1:9944`. -/
theorem C8_scheme_rewrite_witness :
    ∃ r, run_node (.ok ()) (.ok ()) (fun _ => .ok healthyInspect) 1
        ⟨"wss", "node.example", 9944⟩ (fun _ => .ok ())
        (fun _ => .ok healthyInspect) (.ok healthyInspect) = some r ∧
      r.probedUrl = some "http://127.0.0.1:9944" := by
  obtain ⟨r, hr, hu⟩ := C8_scheme_rewrite (.ok ()) (.ok ())
    (fun _ => .ok healthyInspect) 1 ⟨"wss", "node.example", 9944⟩ (fun _ => .ok ())
    (fun _ => .ok healthyInspect) (.ok healthyInspect) (by decide) rfl rfl rfl
  exact ⟨r, hr, by rw [hu]; rfl⟩

/-- **C9.**  Stale-container cleanup stops and deletes at most one
container per run — at most two engine actions, all targeting the id of
the first listed summary matching the derived-name suffix; every other
listed container, matching or not, receives no action. -/
theorem C9_cleanup_single_target (name : String) (stopRes : String → Except Err Unit)
    (cs : List ContainerSummary) :
    (stop_container name stopRes cs).acts.length ≤ 2 ∧
    ∀ a, a ∈ (stop_container name stopRes cs).acts →
      ∃ c, cs.find? (matchesName name) = some c ∧ c.id = some a.actId := by
  induction cs with
  | nil => exact ⟨by simp [stop_container], by simp [stop_container]⟩
  | cons c rest ih =>
    cases hn : c.names with
    | none =>
      exact ⟨by simp [stop_container, hn], by simp [stop_container, hn]⟩
    | some ns =>
      by_cases hm : ns.any (fun n => strEndsWith n name)
      · have hfind : (c :: rest).find? (matchesName name) = some c :=
          List.find?_cons_of_pos _ (by simp [matchesName, hn, hm])
        cases hid : c.id with
        | none =>
          exact ⟨by simp [stop_container, hn, hm, hid], by simp [stop_container, hn, hm, hid]⟩
        | some cid =>
          cases hstop : stopRes cid with
          | error e =>
            refine ⟨by simp [stop_container, hn, hm, hid, hstop], ?_⟩
            intro a ha
            simp [stop_container, hn, hm, hid, hstop] at ha
            subst ha
            exact ⟨c, hfind, by rw [hid]; rfl⟩
          | ok u =>
            refine ⟨by simp [stop_container, hn, hm, hid, hstop], ?_⟩
            intro a ha
            simp [stop_container, hn, hm, hid, hstop] at ha
            rcases ha with ha | ha <;> subst ha <;> exact ⟨c, hfind, by rw [hid]; rfl⟩
      · have hfind : (c :: rest).find? (matchesName name) = rest.find? (matchesName name) :=
          List.find?_cons_of_neg _ (by simp [matchesName, hn, hm])
        have hrec : stop_container name stopRes (c :: rest) =
            stop_container name stopRes rest := by
          simp [stop_container, hn, hm]
        rw [hrec, hfind]
        exact ih

/-- Concrete engine listing for the **C9** witness: an unrelated
container, then two summaries whose names both end in the derived name. -/
def c9List : List ContainerSummary :=
  [⟨some ["/other"], some "id0"⟩,
   ⟨some ["/docker-x-node-bitcoin-regtest"], some "id1"⟩,
   ⟨some ["/again-x-node-bitcoin-regtest"], some "id2"⟩]

set_option maxRecDepth 8000 in
/-- Witness for **C9**: only the first matching summary (`id1`) is acted
on. -/
theorem C9_cleanup_single_target_witness :
    (stop_container "x-node-bitcoin-regtest" (fun _ => .ok ()) c9List).acts.length ≤ 2 ∧
    ∃ c, c9List.find? (matchesName "x-node-bitcoin-regtest") = some c ∧
      c.id = some (EngineAct.stop "id1").actId := by
  have h := C9_cleanup_single_target "x-node-bitcoin-regtest" (fun _ => .ok ()) c9List
  exact ⟨h.1, h.2 (EngineAct.stop "id1") (by decide)⟩

set_option maxRecDepth 8000 in
/-- **C10**, counterexample: an examined summary whose `id` field is
absent but which does not match the derived name causes no panic — the
code never reads `id` on non-matching summaries, refuting "if either
field is absent on a listed summary that is examined, `stop_container`
panics". -/
theorem C10_no_panic_counterexample :
    (stop_container "x-node-a-b" (fun _ => .ok ())
        [⟨some ["/unrelated"], Option.none⟩]).term = StopTermination.ok ∧
    (stop_container "x-node-a-b" (fun _ => .ok ())
        [⟨some ["/unrelated"], Option.none⟩]).term ≠ StopTermination.panicked := by
  exact ⟨rfl, by decide⟩

/-- **C10** (amended).  Scanning the list in order past non-matching
summaries that all carry a `names` field, `stop_container` panics when it
reaches a summary whose `names` field is absent, and panics when it
reaches a first matching summary whose `id` field is absent; the `id`
field of non-matching summaries is never read. -/
theorem C10_panic_conditions (name : String) (stopRes : String → Except Err Unit) :
    ∀ (cs : List ContainerSummary) (i : Nat) (hi : i < cs.length),
      (∀ k, (hk : k < i) → ∃ ns, (cs.get ⟨k, hk.trans hi⟩).names = some ns ∧
        ns.any (fun n => strEndsWith n name) = false) →
      ((cs.get ⟨i, hi⟩).names = Option.none →
        (stop_container name stopRes cs).term = StopTermination.panicked) ∧
      (∀ ns, (cs.get ⟨i, hi⟩).names = some ns →
        ns.any (fun n => strEndsWith n name) = true →
        (cs.get ⟨i, hi⟩).id = Option.none →
        (stop_container name stopRes cs).term = StopTermination.panicked) := by
  intro cs
  induction cs with
  | nil =>
    intro i hi
    exact absurd hi (by simp)
  | cons c rest ih =>
    intro i hi hpre
    cases i with
    | zero =>
      constructor
      · intro hn
        have hcn : c.names = Option.none := hn
        simp [stop_container, hcn]
      · intro ns hn hm hid
        have hcn : c.names = some ns := hn
        have hcid : c.id = Option.none := hid
        simp [stop_container, hcn, hm, hcid]
    | succ j =>
      obtain ⟨ns0, hn0, hm0⟩ := hpre 0 (Nat.succ_pos j)
      have hcn : c.names = some ns0 := hn0
      have hskip : stop_container name stopRes (c :: rest) =
          stop_container name stopRes rest := by
        simp [stop_container, hcn, hm0]
      have hpre' : ∀ k, (hk : k < j) →
          ∃ ns, (rest.get ⟨k, hk.trans (Nat.lt_of_succ_lt_succ hi)⟩).names = some ns ∧
            ns.any (fun n => strEndsWith n name) = false :=
        fun k hk => hpre (k + 1) (Nat.succ_lt_succ hk)
      have h := ih j (Nat.lt_of_succ_lt_succ hi) hpre'
      rw [hskip]
      exact h

/-- Concrete listing for the **C10** witness: a non-matching named
summary followed by one with `names` absent. -/
def c10List : List ContainerSummary :=
  [⟨some ["/other"], some "id0"⟩, ⟨Option.none, some "id1"⟩]

set_option maxRecDepth 8000 in
/-- Witness for **C10** (amended): the `names`-absent summary at index 1,
reached past a named non-match, makes the cleanup panic. -/
theorem C10_panic_conditions_witness :
    (stop_container "x-node-a-b" (fun _ => .ok ()) c10List).term =
      StopTermination.panicked := by
  have h := C10_panic_conditions "x-node-a-b" (fun _ => .ok ()) c10List 1 (by decide)
    (fun k hk => by
      have hk0 : k = 0 := by omega
      subst hk0
      exact ⟨["/other"], rfl, by decide⟩)
  exact h.1 rfl
